import Mathlib

/-!
Verification of the HN_summarizer story-processing pipeline.

This file gives a shallow embedding of the pipeline's core functions —
`ContentExtractor.extract` / `_extract_main_content` / `_extract_title`
(src/services/content_extractor.py), the orchestrator's per-story loop
(src/main.py), `Summarizer.summarize` and `OllamaProvider.generate_summary`
(src/services/summarizer.py), `HNFetcher.fetch_top_stories` / `_fetch_story`
(src/services/hn_fetcher.py), and the delivery renderers / batch splitting /
service initialization (src/services/delivery.py) — and proves or refutes
the specified properties about them.

Python dictionaries are modelled as association lists over a small value
type `PyVal`; network and clock effects are modelled as explicit outcome
parameters (a fetch either fails with an exception message or succeeds with
the response body and parsed document); Python exceptions are modelled with
`Except`.
-/

namespace HN

/-- A Python value as it appears in the dictionaries this program builds:
a string, a number (timestamps and counts are modelled as `Nat`), or a
boolean. -/
inductive PyVal where
  | str (s : String)
  | num (n : Nat)
  | bool (b : Bool)
deriving DecidableEq, Repr

/-- A Python dict, modelled as an association list (insertion order kept,
as Python dicts do). -/
abbrev Dict := List (String × PyVal)

/-- `d[k]` lookup: first binding of key `k`. -/
def dictLookup (k : String) : Dict → Option PyVal
  | [] => none
  | (k2, v) :: rest => if k2 = k then some v else dictLookup k rest

/-- The list of keys of a dict, in order. -/
def dictKeys (d : Dict) : List String := d.map Prod.fst

/-- Python `k in d`. -/
def dictHasKey (k : String) (d : Dict) : Bool :=
  match dictLookup k d with
  | some _ => true
  | none => false

/-- Python `d.get(k)`: the value, or `None`. -/
def dictGet (k : String) (d : Dict) : Option PyVal := dictLookup k d

/-- Python `d.get(k, default)` for string-valued entries: the stored string,
or the default when the key is absent or holds a non-string. -/
def dictGetStrD (k : String) (dflt : String) (d : Dict) : String :=
  match dictLookup k d with
  | some (.str s) => s
  | _ => dflt

/-- Python truthiness of a value: empty string, zero and `False` are falsy. -/
def pyTruthy : PyVal → Bool
  | .str s => !(s == "")
  | .num n => !(n == 0)
  | .bool b => b

/-- Python `bool(d.get(k, dflt))`: truthiness of the stored value, or the
default when the key is absent. -/
def pyGetBool (k : String) (dflt : Bool) (d : Dict) : Bool :=
  match dictLookup k d with
  | some v => pyTruthy v
  | none => dflt

/-- Python `str.lower()`, character by character. -/
def lowerString (s : String) : String := String.mk (s.data.map Char.toLower)

/-- Whitespace test used throughout the whitespace cleanup model. -/
def isWsChar (c : Char) : Bool := c.isWhitespace

/-- `re.sub(r"\s+", " ", ·)` on a character list: every maximal run of
whitespace characters becomes a single space. -/
def squeeze : List Char → List Char
  | [] => []
  | c :: cs =>
    let rest := squeeze cs
    if isWsChar c then
      if rest.head? == some ' ' then rest else ' ' :: rest
    else c :: rest

/-- Remove a trailing whitespace run from a character list. -/
def trimRight : List Char → List Char
  | [] => []
  | c :: cs =>
    match trimRight cs with
    | [] => if isWsChar c then [] else [c]
    | rest => c :: rest

/-- Python `str.strip()`: drop leading and trailing whitespace. -/
def pyStrip (s : String) : String :=
  String.mk (trimRight (s.data.dropWhile isWsChar))

/-- `re.sub(r"\s+", " ", text).strip()` from `_extract_main_content`. -/
def collapseWhitespace (s : String) : String :=
  String.mk (trimRight ((squeeze s.data).dropWhile isWsChar))

/-- The characters after the first occurrence of `sep`, or `none` when
`sep` does not occur. -/
def afterFirst (sep : List Char) : List Char → Option (List Char)
  | [] => none
  | c :: cs =>
    if sep.isPrefixOf (c :: cs) then some ((c :: cs).drop sep.length)
    else afterFirst sep cs

/-- `urlparse(url).netloc`: the authority part of the URL — what follows the
first `"://"` up to the next `/`, `?` or `#`; empty when the URL has no
`"://"`. -/
def netloc (url : String) : String :=
  match afterFirst [':', '/', '/'] url.data with
  | none => ""
  | some rest =>
    String.mk (rest.takeWhile fun c => !(c == '/') && !(c == '?') && !(c == '#'))

/-! ## HTML document model (BeautifulSoup tree) -/

/-- A parsed HTML node: an element with tag name, optional `id` attribute,
class list and children, or a text node. The parsed document (the soup) is
a list of top-level nodes. -/
inductive Node where
  | elem (tag : String) (idAttr : Option String) (classes : List String)
      (children : List Node)
  | text (s : String)

mutual

/-- `decompose()` of every element whose tag satisfies `p`, applied to one
node: `none` when the node itself is removed. -/
def stripNode (p : String → Bool) : Node → Option Node
  | .text s => some (.text s)
  | .elem t i c ch =>
    if p t then none else some (.elem t i c (stripNodes p ch))

/-- `decompose()` of every element whose tag satisfies `p`, over a node
list. -/
def stripNodes (p : String → Bool) : List Node → List Node
  | [] => []
  | n :: ns =>
    match stripNode p n with
    | some m => m :: stripNodes p ns
    | none => stripNodes p ns

end

mutual

/-- `soup.find`-style search of a node and its descendants, document
order, the node itself checked first. -/
def findNode (p : Node → Bool) : Node → Option Node
  | .text s => if p (.text s) then some (.text s) else none
  | .elem t i c ch =>
    if p (.elem t i c ch) then some (.elem t i c ch) else findFirst p ch

/-- `soup.find`-style search over a node list in document order. -/
def findFirst (p : Node → Bool) : List Node → Option Node
  | [] => none
  | n :: ns =>
    match findNode p n with
    | some r => some r
    | none => findFirst p ns

end

mutual

/-- The text-node strings of a node, in document order (`soup.strings`). -/
def nodeStrings : Node → List String
  | .text s => [s]
  | .elem _ _ _ ch => nodesStrings ch

/-- The text-node strings of a node list, in document order. -/
def nodesStrings : List Node → List String
  | [] => []
  | n :: ns => nodeStrings n ++ nodesStrings ns

end

/-- `get_text(separator=" ", strip=True)`: each string stripped, empty
ones dropped, the rest joined with single spaces. -/
def getTextOf (fragments : List String) : String :=
  String.intercalate " "
    ((fragments.map pyStrip).filter (fun s => !(s == "")))

/-- `node.get_text(separator=" ", strip=True)`. -/
def getTextStrip (n : Node) : String := getTextOf (nodeStrings n)

/-- `soup.get_text(separator=" ", strip=True)` on the whole document. -/
def getTextStripList (doc : List Node) : String := getTextOf (nodesStrings doc)

/-- The regex `^{v}$|^main-{v}$` with `re.I`, applied to an attribute
value: the value equals `v` or `main-` ++ `v`, case-insensitively (`v` is
one of the lowercase content-region names). -/
def regionMatch (v s : String) : Bool :=
  lowerString s == v || lowerString s == "main-" ++ v

/-- `soup.find(id=re.compile(...))`: an element whose `id` attribute
matches the content-region pattern for `v`. -/
def idMatches (v : String) : Node → Bool
  | .elem _ (some i) _ _ => regionMatch v i
  | _ => false

/-- `soup.find(class_=re.compile(...))`: an element one of whose classes
matches the content-region pattern for `v`. -/
def classMatches (v : String) : Node → Bool
  | .elem _ _ cs _ => cs.any (regionMatch v)
  | _ => false

/-- An element with the given tag name. -/
def tagIs (t : String) : Node → Bool
  | .elem tg _ _ _ => tg == t
  | _ => false

/-- `soup.find(tag)`. -/
def findTag (t : String) (doc : List Node) : Option Node :=
  findFirst (tagIs t) doc

/-- The `for id_value in [...]` loop: first content-region name whose id
pattern finds an element wins. -/
def findByIdList : List String → List Node → Option Node
  | [], _ => none
  | v :: vs, doc =>
    match findFirst (idMatches v) doc with
    | some e => some e
    | none => findByIdList vs doc

/-- The `for class_value in [...]` loop. -/
def findByClassList : List String → List Node → Option Node
  | [], _ => none
  | v :: vs, doc =>
    match findFirst (classMatches v) doc with
    | some e => some e
    | none => findByClassList vs doc

/-- The tags removed before content selection. -/
def unwantedTag (t : String) : Bool :=
  t == "script" || t == "style" || t == "nav" || t == "header" ||
  t == "footer" || t == "aside"

/-- The id candidates of `_extract_main_content`. -/
def contentIdNames : List String := ["content", "main", "article", "post", "entry"]

/-- The class candidates of `_extract_main_content`. -/
def contentClassNames : List String := ["content", "article", "post", "entry", "story"]

/-- `ContentExtractor._extract_main_content`, mirroring the Python
control flow: strip the unwanted elements, then successively try id
candidates, class candidates, the `article` tag, the `body` tag, finally
the whole document; take the selected node's visible text and collapse
whitespace. -/
def extractMainContent (doc : List Node) : String :=
  let doc2 := stripNodes unwantedTag doc
  let mc1 := findByIdList contentIdNames doc2
  let mc2 :=
    match mc1 with
    | some e => some e
    | none => findByClassList contentClassNames doc2
  let mc3 :=
    match mc2 with
    | some e => some e
    | none => findTag "article" doc2
  let mc4 :=
    match mc3 with
    | some e => some e
    | none => findTag "body" doc2
  let text :=
    match mc4 with
    | some e => getTextStrip e
    | none => getTextStripList doc2
  collapseWhitespace text

/-- The content-selection chain exactly as the specification words it: the
five selectors tried in order (1) id match, (2) class match, (3) first
article element, (4) document body, with (5) the whole document as the
fallback handled by the caller. -/
def selectContentSpec (d : List Node) : Option Node :=
  (findByIdList contentIdNames d).orElse fun _ =>
    (findByClassList contentClassNames d).orElse fun _ =>
      (findTag "article" d).orElse fun _ =>
        findTag "body" d

/-- The specification's wording of `_extract_main_content`: strip the
non-content elements, select via `selectContentSpec` (whole document when
nothing was selected), then collapse whitespace over the visible text. -/
def extractMainContentSpec (doc : List Node) : String :=
  let d := stripNodes unwantedTag doc
  collapseWhitespace
    (match selectContentSpec d with
     | some n => getTextStrip n
     | none => getTextStripList d)

/-! ## ContentExtractor.extract -/

/-- The outcome of `self.session.get(url, ...)` followed by
`raise_for_status()` and parsing: either a `requests.RequestException`
(network error, HTTP error status, timeout), or the response body together
with its parsed document and the `time.time()` reading. -/
inductive FetchResult where
  | failure (msg : String)
  | success (html : String) (doc : List Node) (t : Nat)

/-- `soup.title.string`: the single string child of the title element,
`None` otherwise. -/
def titleString : Node → Option String
  | .elem _ _ _ [.text s] => some s
  | _ => none

/-- `ContentExtractor._extract_title`: the stripped title string when the
page declares one, the fixed sentinel otherwise; `soup.title.string` being
`None` makes `.strip()` raise an `AttributeError`. -/
def extractTitle (doc : List Node) : Except String String :=
  match findTag "title" doc with
  | some n =>
    match titleString n with
    | some s => .ok (pyStrip s)
    | none => .error "AttributeError: NoneType has no attribute strip"
  | none => .ok "No title found"

/-- `ContentExtractor.extract`: on fetch failure the exception is logged
and re-raised; on success the result dictionary is built from the parsed
document. -/
def extract (url : String) (f : FetchResult) : Except String Dict :=
  match f with
  | .failure e => .error e
  | .success html doc t =>
    match extractTitle doc with
    | .error e => .error e
    | .ok title =>
      .ok [("url", .str url),
           ("domain", .str (netloc url)),
           ("title", .str title),
           ("content", .str (extractMainContent doc)),
           ("html", .str html),
           ("extracted_at", .num t)]

/-! ## Summarizer and providers -/

/-- The outcome of one provider backend call as the orchestrator sees it:
either the provider raised (auth error, rate limit, invalid response, …)
or it returned a generated text (already trimmed by the provider). -/
inductive GenOutcome where
  | exn (msg : String)
  | ok (txt : String)

/-- `OllamaProvider.generate_summary` response handling:
`result.get("response", "").strip()` — a missing key gives the empty
string, a non-string value makes `.strip()` raise. -/
def ollamaGenerateSummary (result : Dict) : Except String String :=
  match dictLookup "response" result with
  | none => .ok (pyStrip "")
  | some (.str s) => .ok (pyStrip s)
  | some _ => .error "AttributeError: no attribute strip"

/-- A summary record as built by `Summarizer.summarize` and by the two
placeholder branches of `main`. `accessRestricted` is an `Option` because
the success path does not put an `access_restricted` key in the record at
all. -/
structure SummaryRecord where
  story : Dict
  cTitle : Option PyVal
  cUrl : Option PyVal
  cDomain : Option PyVal
  contentLength : Nat
  summary : String
  accessRestricted : Option Bool
  summarizedAt : Nat

/-- `Summarizer.summarize`: call the provider; on success build the record
snapshot; a provider exception is logged and re-raised. -/
def summarize (story : Dict) (content : Dict) (gen : GenOutcome) (now : Nat) :
    Except String SummaryRecord :=
  match gen with
  | .exn m => .error m
  | .ok txt =>
    .ok { story := story
          cTitle := dictGet "title" content
          cUrl := dictGet "url" content
          cDomain := dictGet "domain" content
          contentLength := (dictGetStrD "content" "" content).length
          summary := txt
          accessRestricted := none
          summarizedAt := now }

/-! ## Orchestrator (main.py per-story loop) -/

/-- The fixed placeholder summary text of main.py. -/
def placeholderSummary : String :=
  "このコンテンツはアクセス制限があるため要約できませんでした。"

/-- The record built by the `except` handler of the per-story loop: title
and URL from the story, domain re-parsed from the story URL, zero content
length, the placeholder summary, `access_restricted = True`. -/
def placeholderRecord (story : Dict) (now : Nat) : SummaryRecord :=
  { story := story
    cTitle := dictGet "title" story
    cUrl := dictGet "url" story
    cDomain := some (.str (netloc (dictGetStrD "url" "" story)))
    contentLength := 0
    summary := placeholderSummary
    accessRestricted := some true
    summarizedAt := now }

/-- The record built by the `access_restricted` branch of the per-story
loop (title and URL from the story, domain from the extracted content). -/
def restrictedRecord (story : Dict) (content : Dict) (now : Nat) : SummaryRecord :=
  { story := story
    cTitle := dictGet "title" story
    cUrl := dictGet "url" story
    cDomain := dictGet "domain" content
    contentLength := 0
    summary := placeholderSummary
    accessRestricted := some true
    summarizedAt := now }

/-- One iteration of the per-story loop of `main`: extract; on the
`access_restricted` flag take the restricted branch; otherwise summarize;
any exception from extraction or summarization lands in the `except`
handler, which appends the placeholder record. -/
def processStory (story : Dict) (f : FetchResult) (gen : GenOutcome) (now : Nat) :
    SummaryRecord :=
  match extract (dictGetStrD "url" "" story) f with
  | .error _ => placeholderRecord story now
  | .ok content =>
    if pyGetBool "access_restricted" false content then
      restrictedRecord story content now
    else
      match summarize story content gen now with
      | .error _ => placeholderRecord story now
      | .ok rec => rec

/-- The whole per-story loop: each story is processed with its own network
and provider outcome; every story contributes exactly one record. -/
def processStories : List (Dict × FetchResult × GenOutcome × Nat) → List SummaryRecord
  | [] => []
  | (story, f, gen, now) :: rest =>
    processStory story f gen now :: processStories rest

/-! ## HNFetcher -/

/-- The outcome of `_fetch_story`'s network call for one story id: a
`requests.RequestException` (caught, turning the story into `None`) or the
parsed story JSON dictionary. -/
inductive StoryFetch where
  | exn (msg : String)
  | ok (d : Dict)

/-- `HNFetcher._fetch_story`: on a request exception return `None`;
otherwise the story dict with a `fetched_at` timestamp added. -/
def fetchStory (now : Nat) : StoryFetch → Option Dict
  | .exn _ => none
  | .ok d => some (d ++ [("fetched_at", .num now)])

/-- The filter of `fetch_top_stories`: `if story and "url" in story` —
a `None` result or a falsy (empty) dict or a dict without a `url` key is
dropped. -/
def storyKeep : Option Dict → Bool
  | none => false
  | some d => !d.isEmpty && dictHasKey "url" d

/-- `HNFetcher.fetch_top_stories` over the per-id outcomes: iterate the
story ids in order, fetch each, keep only truthy URL-bearing results. -/
def fetchTopStories (now : Nat) : List StoryFetch → List Dict
  | [] => []
  | o :: rest =>
    match fetchStory now o with
    | some d =>
      if storyKeep (some d) then d :: fetchTopStories now rest
      else fetchTopStories now rest
    | none => fetchTopStories now rest

/-! ## Delivery (delivery.py) -/

/-- The fields of `summary["story"]` that the renderers read, each
optional (the renderers use `.get` with defaults). -/
structure DStory where
  title : Option String
  url : Option String
  score : Option Nat
  descendants : Option Nat
  hnId : Option String

/-- A summary record as the delivery renderers see it:
`summary.get("story", {})` may be absent, as may `summary` itself and the
`access_restricted` key. -/
structure DRecord where
  story : Option DStory
  summary : Option String
  accessRestricted : Option Bool

/-- `story.get("title", "Unknown Title")`. -/
def dTitle (r : DRecord) : String := ((r.story.bind DStory.title).getD "Unknown Title")

/-- `story.get("url", "No URL")` (email and LINE renderers). -/
def dUrl (r : DRecord) : String := ((r.story.bind DStory.url).getD "No URL")

/-- `story.get("url", "#")` (Slack renderer). -/
def dUrlHash (r : DRecord) : String := ((r.story.bind DStory.url).getD "#")

/-- `story.get("score", 0)`. -/
def dScore (r : DRecord) : Nat := ((r.story.bind DStory.score).getD 0)

/-- `story.get("descendants", 0)`. -/
def dDescendants (r : DRecord) : Nat := ((r.story.bind DStory.descendants).getD 0)

/-- `story.get("id", "")`. -/
def dId (r : DRecord) : String := ((r.story.bind DStory.hnId).getD "")

/-- `summary.get("summary", "No summary available")`. -/
def dSummary (r : DRecord) : String := (r.summary.getD "No summary available")

/-- `"-" * 80`. -/
def dashes80 : String := String.mk (List.replicate 80 '-')

/-- The per-record block of `EmailDelivery._create_text_content` for the
record at (1-based) position `i`: title, URL, points/comments line, the
summary, and the dashed separator. -/
def textRecordBlock (i : Nat) (r : DRecord) : String :=
  toString i ++ ". " ++ dTitle r ++ "\n" ++
  "URL: " ++ dUrl r ++ "\n" ++
  "Points: " ++ toString (dScore r) ++ " | " ++
  "Comments: " ++ toString (dDescendants r) ++ "\n\n" ++
  dSummary r ++ "\n\n" ++
  dashes80 ++ "\n\n"

/-- The date header line of `_create_text_content`; `date` is the
`time.strftime("%Y-%m-%d")` reading of the run. -/
def textHeader (date : String) : String :=
  "Hacker News Top Stories - " ++ date ++ "\n\n"

/-- The `for i, summary in enumerate(summaries, 1)` accumulation loop of
`_create_text_content`. -/
def textLoop (acc : String) (i : Nat) : List DRecord → String
  | [] => acc
  | r :: rest => textLoop (acc ++ textRecordBlock i r) (i + 1) rest

/-- `EmailDelivery._create_text_content`: the date header followed by one
block per record, accumulated in order. -/
def createTextContent (date : String) (rs : List DRecord) : String :=
  textLoop (textHeader date) 1 rs

/-- The per-record blocks concatenated starting at position `i` (the
date-independent part of the text content). -/
def textRecordBlocks (i : Nat) : List DRecord → String
  | [] => ""
  | r :: rest => textRecordBlock i r ++ textRecordBlocks (i + 1) rest

/-- A Slack Block-Kit block as `_create_message_blocks` builds them. -/
inductive SBlock where
  | header (text : String)
  | divider
  | section (text : String)
  | context (text : String)
deriving DecidableEq

/-- The Python slice comprehension `[xs[i:i+k] for i in range(0, len(xs), k)]`
used for Slack batch splitting (and for splitting long texts into chunks).
A step of `0` would make `range` raise in Python; the claim assumes a
positive cap, and the model returns no batches there. -/
def chunkList (k : Nat) : List α → List (List α)
  | [] => []
  | a :: l =>
    match k with
    | 0 => []
    | kk + 1 => (a :: l).take (kk + 1) :: chunkList (kk + 1) (l.drop kk)
termination_by l => l.length
decreasing_by
  simp only [List.length_cons, List.length_drop]
  omega

/-- `SlackDelivery.send`'s batch split of the record list under the
`max_summaries_per_message` cap. -/
def slackSplitBatches (cap : Nat) (rs : List DRecord) : List (List DRecord) :=
  chunkList cap rs

/-- Splitting a long summary string into 3000-character chunks:
`[s[i:i+3000] for i in range(0, len(s), 3000)]`. -/
def stringChunks (k : Nat) (s : String) : List String :=
  (chunkList k s.data).map String.mk

/-- The Slack section blocks for one summary text: split into
3000-character chunks when it is longer than 3000 characters. -/
def summarySections (txt : String) : List SBlock :=
  if txt.length > 3000 then (stringChunks 3000 txt).map SBlock.section
  else [SBlock.section txt]

/-- The blocks `_create_message_blocks` appends for one record: linked
title, points/comments context, the summary section(s), a divider. -/
def slackRecordBlocks (r : DRecord) : List SBlock :=
  [SBlock.section ("*<" ++ dUrlHash r ++ "|" ++ dTitle r ++ ">*"),
   SBlock.context ("Points: " ++ toString (dScore r) ++ " | Comments: " ++
     toString (dDescendants r) ++ " | <https://news.ycombinator.com/item?id=" ++
     dId r ++ "|Discuss on HN>")] ++
  summarySections (dSummary r) ++ [SBlock.divider]

/-- The header blocks `_create_message_blocks` starts from; `date` is the
`time.strftime("%Y-%m-%d")` reading of the run. -/
def slackHeaderBlocks (date : String) : List SBlock :=
  [SBlock.header ("Hacker News Top Stories - " ++ date), SBlock.divider]

/-- The `for summary in summaries: blocks.append(...)` loop. -/
def blocksLoop (acc : List SBlock) : List DRecord → List SBlock
  | [] => acc
  | r :: rest => blocksLoop (acc ++ slackRecordBlocks r) rest

/-- `SlackDelivery._create_message_blocks`. -/
def createMessageBlocks (date : String) (rs : List DRecord) : List SBlock :=
  blocksLoop (slackHeaderBlocks date) rs

/-- The per-record blocks concatenated (the date-independent part of the
Slack message blocks). -/
def slackAllRecordBlocks : List DRecord → List SBlock
  | [] => []
  | r :: rest => slackRecordBlocks r ++ slackAllRecordBlocks rest

/-! ## DeliveryService -/

/-- The email channel configuration dictionary fields the constructor
reads. -/
structure EmailConfig where
  username : Option String
  password : Option String
  recipients : List String
deriving DecidableEq

/-- The Slack channel configuration fields the constructor validates. -/
structure SlackConfig where
  webhookUrl : Option String
deriving DecidableEq

/-- The LINE channel configuration fields the constructor validates. -/
structure LineConfig where
  accessToken : Option String
  recipientId : Option String
deriving DecidableEq

/-- Python truthiness of an optional string. -/
def optTruthy : Option String → Bool
  | none => false
  | some s => !(s == "")

/-- An initialized delivery channel. -/
inductive Channel where
  | email (c : EmailConfig)
  | slack (c : SlackConfig)
  | line (c : LineConfig)
deriving DecidableEq

/-- `EmailDelivery.__init__` validation: username, password and at least
one recipient are required, enforced eagerly. -/
def emailInit (c : EmailConfig) : Except String Channel :=
  if !optTruthy c.username || !optTruthy c.password then
    .error "Email username and password are required"
  else if c.recipients.isEmpty then
    .error "At least one recipient email is required"
  else .ok (.email c)

/-- `SlackDelivery.__init__` validation. -/
def slackInit (c : SlackConfig) : Except String Channel :=
  if !optTruthy c.webhookUrl then .error "Slack webhook URL is required"
  else .ok (.slack c)

/-- `LineDelivery.__init__` validation. -/
def lineInit (c : LineConfig) : Except String Channel :=
  if !optTruthy c.accessToken then .error "LINE access token is required"
  else if !optTruthy c.recipientId then
    .error "LINE recipient (user ID or group ID) is required"
  else .ok (.line c)

/-- The delivery section of the configuration as `DeliveryService` reads
it: the `method` string and the per-channel sub-sections (absent sections
default to empty dictionaries). -/
structure DeliveryConfig where
  method : Option String
  email : Option EmailConfig
  slack : Option SlackConfig
  line : Option LineConfig

/-- The empty email configuration dictionary. -/
def emptyEmailConfig : EmailConfig := { username := none, password := none, recipients := [] }

/-- The empty Slack configuration dictionary. -/
def emptySlackConfig : SlackConfig := { webhookUrl := none }

/-- The empty LINE configuration dictionary. -/
def emptyLineConfig : LineConfig := { accessToken := none, recipientId := none }

/-- `DeliveryService._initialize_delivery_method`: dispatch on the single
lowercased `method` string; any other value — including a comma-separated
list — raises `ValueError`. -/
def initializeDeliveryMethod (cfg : DeliveryConfig) : Except String Channel :=
  let m := lowerString (cfg.method.getD "email")
  if m == "email" then emailInit (cfg.email.getD emptyEmailConfig)
  else if m == "slack" then slackInit (cfg.slack.getD emptySlackConfig)
  else if m == "line" then lineInit (cfg.line.getD emptyLineConfig)
  else .error ("Unsupported delivery method: " ++ m)

/-- What the initialized channel's `send` does on this run, as observed at
the `DeliveryService.deliver` boundary: it returns a boolean or raises. -/
inductive SendBehavior where
  | returns (b : Bool)
  | raises (msg : String)

/-- `DeliveryService.deliver`: call the single configured channel's `send`
inside a `try`; an exception is logged and converted to `False`. -/
def deliver (beh : SendBehavior) : Bool :=
  match beh with
  | .returns b => b
  | .raises _ => false

/-! ## Lemmas about the batch split -/

theorem chunkList_nil (k : Nat) : chunkList k ([] : List α) = [] := by
  simp [chunkList]

theorem chunkList_succ_cons (kk : Nat) (a : α) (l : List α) :
    chunkList (kk + 1) (a :: l) = (a :: l).take (kk + 1) :: chunkList (kk + 1) (l.drop kk) := by
  rw [chunkList]

theorem chunkList_flatten (kk : Nat) : ∀ l : List α, (chunkList (kk + 1) l).flatten = l
  | [] => by simp [chunkList]
  | a :: l => by
    rw [chunkList_succ_cons]
    have ih := chunkList_flatten kk (l.drop kk)
    simp only [List.flatten_cons, ih, List.take_succ_cons, List.cons_append, List.cons.injEq,
      true_and]
    exact List.take_append_drop kk l
termination_by l => l.length
decreasing_by simp only [List.length_cons, List.length_drop]; omega

theorem chunkList_length (kk : Nat) :
    ∀ l : List α, (chunkList (kk + 1) l).length = (l.length + kk) / (kk + 1)
  | [] => by
    simp only [chunkList, List.length_nil, Nat.zero_add]
    exact (Nat.div_eq_of_lt (by omega)).symm
  | a :: l => by
    rw [chunkList_succ_cons]
    have ih := chunkList_length kk (l.drop kk)
    simp only [List.length_cons, ih, List.length_drop]
    rcases Nat.le_total l.length kk with h | h
    · have h1 : l.length - kk + kk = kk := by omega
      have h2 : kk / (kk + 1) = 0 := Nat.div_eq_of_lt (by omega)
      have h3 : (l.length + 1 + kk) / (kk + 1) = 1 :=
        Nat.div_eq_of_lt_le (by omega) (by omega)
      rw [h1, h2, h3]
    · have h1 : l.length - kk + kk = l.length := by omega
      have h2 : l.length + 1 + kk = l.length + (kk + 1) := by omega
      rw [h1, h2, Nat.add_div_right _ (by omega : 0 < kk + 1)]
termination_by l => l.length
decreasing_by simp only [List.length_cons, List.length_drop]; omega

theorem chunkList_ne_nil (kk : Nat) (a : α) (l : List α) :
    chunkList (kk + 1) (a :: l) ≠ [] := by
  rw [chunkList_succ_cons]
  exact List.cons_ne_nil _ _

theorem chunkList_dropLast_sizes (kk : Nat) :
    ∀ l : List α, ((chunkList (kk + 1) l).dropLast.all fun b => b.length == kk + 1) = true
  | [] => by simp [chunkList]
  | a :: l => by
    rw [chunkList_succ_cons]
    cases hd : l.drop kk with
    | nil => simp [chunkList]
    | cons b bs =>
      have ih := chunkList_dropLast_sizes kk (l.drop kk)
      rw [hd] at ih
      have hne := chunkList_ne_nil kk b bs
      cases hc : chunkList (kk + 1) (b :: bs) with
      | nil => exact absurd hc hne
      | cons c cs =>
        rw [hc] at ih
        have hl : kk < l.length := by
          by_contra hcon
          have : l.drop kk = [] := List.drop_eq_nil_iff.mpr (by omega)
          rw [this] at hd
          exact List.noConfusion hd
        have hmin : min (kk + 1) (l.length + 1) = kk + 1 := by omega
        simp only [List.dropLast_cons₂, List.all_cons, ih, Bool.and_true, List.length_take,
          List.length_cons, hmin, beq_self_eq_true]
termination_by l => l.length
decreasing_by simp only [List.length_cons, List.length_drop]; omega

theorem chunkList_getLast_size (kk : Nat) :
    ∀ l : List α, (chunkList (kk + 1) l).getLast?.map List.length =
      (if l.length = 0 then none
       else some (if l.length % (kk + 1) = 0 then kk + 1 else l.length % (kk + 1)))
  | [] => by simp [chunkList]
  | a :: l => by
    rw [chunkList_succ_cons]
    cases hd : l.drop kk with
    | nil =>
      have hlen : l.length ≤ kk := List.drop_eq_nil_iff.mp hd
      rw [chunkList_nil]
      rcases Nat.lt_or_ge l.length kk with h | h
      · have hmod : (l.length + 1) % (kk + 1) = l.length + 1 := Nat.mod_eq_of_lt (by omega)
        simp [List.length_take, hmod]
        omega
      · have heq : l.length = kk := by omega
        subst heq
        simp [List.length_take, Nat.mod_self]
    | cons b bs =>
      have ih := chunkList_getLast_size kk (l.drop kk)
      rw [hd] at ih
      have hne := chunkList_ne_nil kk b bs
      cases hc : chunkList (kk + 1) (b :: bs) with
      | nil => exact absurd hc hne
      | cons c cs =>
        rw [hc] at ih
        rw [List.getLast?_cons_cons]
        have hl : kk < l.length := by
          by_contra hcon
          have : l.drop kk = [] := List.drop_eq_nil_iff.mpr (by omega)
          rw [this] at hd
          exact List.noConfusion hd
        have hlen : (b :: bs).length = l.length - kk := by
          rw [← hd, List.length_drop]
        rw [hlen] at ih
        have hne0 : ¬(l.length - kk = 0) := by omega
        have hmod : (l.length + 1) % (kk + 1) = (l.length - kk) % (kk + 1) := by
          rw [show l.length + 1 = (l.length - kk) + (kk + 1) by omega]
          exact Nat.add_mod_right _ _
        rw [if_neg hne0] at ih
        simp only [List.length_cons]
        rw [if_neg (by omega : ¬(l.length + 1 = 0)), hmod]
        exact ih
termination_by l => l.length
decreasing_by simp only [List.length_cons, List.length_drop]; omega

/-- C5: splitting m records with a positive per-batch cap k yields
⌈m/k⌉ batches whose concatenation in order is the original list, all
batches except the last holding exactly k records, and the last holding
m mod k records (k when k divides m). -/
theorem slack_batch_split_correct (k : Nat) (hk : 0 < k) (rs : List DRecord) :
    (slackSplitBatches k rs).flatten = rs ∧
    (slackSplitBatches k rs).length = (rs.length + k - 1) / k ∧
    ((slackSplitBatches k rs).dropLast.all fun b => b.length == k) = true ∧
    (slackSplitBatches k rs).getLast?.map List.length =
      (if rs.length = 0 then none
       else some (if rs.length % k = 0 then k else rs.length % k)) := by
  obtain ⟨kk, rfl⟩ : ∃ kk, k = kk + 1 := ⟨k - 1, by omega⟩
  refine ⟨chunkList_flatten kk rs, ?_, chunkList_dropLast_sizes kk rs, chunkList_getLast_size kk rs⟩
  show (chunkList (kk + 1) rs).length = _
  rw [chunkList_length kk rs, show rs.length + (kk + 1) - 1 = rs.length + kk from by omega]

/-- A plain record used for concrete evaluations. -/
def plainRecord : DRecord :=
  { story := some { title := some "T", url := some "http://a.com", score := some 1,
                    descendants := some 2, hnId := some "1" }
    summary := some "S"
    accessRestricted := none }

/-- Witness for C5 at the specification's own example: 7 records with a
cap of 3 split into batches of sizes 3, 3, 1. -/
theorem slack_batch_split_correct_witness :
    (slackSplitBatches 3 (List.replicate 7 plainRecord)).flatten = List.replicate 7 plainRecord ∧
    (slackSplitBatches 3 (List.replicate 7 plainRecord)).length =
      ((List.replicate 7 plainRecord).length + 3 - 1) / 3 ∧
    ((slackSplitBatches 3 (List.replicate 7 plainRecord)).dropLast.all
      fun b => b.length == 3) = true ∧
    (slackSplitBatches 3 (List.replicate 7 plainRecord)).getLast?.map List.length =
      (if (List.replicate 7 plainRecord).length = 0 then none
       else some (if (List.replicate 7 plainRecord).length % 3 = 0 then 3
                  else (List.replicate 7 plainRecord).length % 3)) :=
  slack_batch_split_correct 3 (by decide) (List.replicate 7 plainRecord)

/-! ## Rendering lemmas -/

theorem textLoop_factors (rs : List DRecord) :
    ∀ (acc : String) (i : Nat), textLoop acc i rs = acc ++ textRecordBlocks i rs := by
  induction rs with
  | nil => intro acc i; simp [textLoop, textRecordBlocks, String.append_empty]
  | cons r rest ih =>
    intro acc i
    rw [textLoop, textRecordBlocks, ih, String.append_assoc]

theorem blocksLoop_factors (rs : List DRecord) :
    ∀ acc : List SBlock, blocksLoop acc rs = acc ++ slackAllRecordBlocks rs := by
  induction rs with
  | nil => intro acc; simp [blocksLoop, slackAllRecordBlocks]
  | cons r rest ih =>
    intro acc
    rw [blocksLoop, slackAllRecordBlocks, ih, List.append_assoc]

/-- C8 (amended): each rendering is a deterministic function of the record
fields, the record positions and the run date, and the run date enters
only through the fixed header — the per-record part of the payload is a
pure function of the records alone. -/
theorem rendering_pure_given_date (date : String) (rs : List DRecord) :
    createTextContent date rs = textHeader date ++ textRecordBlocks 1 rs ∧
    createMessageBlocks date rs = slackHeaderBlocks date ++ slackAllRecordBlocks rs :=
  ⟨textLoop_factors rs (textHeader date) 1, blocksLoop_factors rs (slackHeaderBlocks date)⟩

/-- The access-restricted record of the repository's own test scripts
(`test_format_summary.py`, test case 4). -/
def restrictedRec : DRecord :=
  { story := some { title := some "Access Restricted Story"
                    url := some "https://example.com/restricted"
                    score := some 100
                    descendants := some 50
                    hnId := some "12345" }
    summary := some "This summary should not be shown."
    accessRestricted := some true }

/-- The same record with the `access_restricted` flag cleared. -/
def unrestrictedRec : DRecord :=
  { restrictedRec with accessRestricted := some false }

set_option maxRecDepth 4000 in
/-- C8 (counterexample): the rendered payload embeds the run date
(`time.strftime`) in its header, so two renderings of the same record on
runs with different dates are not byte-identical. -/
theorem rendering_differs_across_dates :
    createTextContent "2025-01-01" [restrictedRec] ≠
      createTextContent "2025-01-02" [restrictedRec] ∧
    createMessageBlocks "2025-01-01" [restrictedRec] ≠
      createMessageBlocks "2025-01-02" [restrictedRec] := by
  refine ⟨?_, ?_⟩ <;> decide

set_option maxRecDepth 4000 in
/-- C7: `_create_text_content` renders an access-restricted record with
the full title + URL + points/comments metadata + summary-body block — it
never branches on `access_restricted` — so the restricted record of the
repository's own test script renders with its metadata and its summary
text shown, byte-identical to the rendering of the unrestricted variant. -/
theorem email_renders_restricted_with_metadata_and_summary :
    createTextContent "2025-04-01" [restrictedRec] =
      textHeader "2025-04-01" ++
        ("1. Access Restricted Story\n" ++
         "URL: https://example.com/restricted\n" ++
         "Points: 100 | Comments: 50\n\n" ++
         "This summary should not be shown.\n\n" ++
         dashes80 ++ "\n\n") ∧
    createTextContent "2025-04-01" [restrictedRec] =
      createTextContent "2025-04-01" [unrestrictedRec] := by
  refine ⟨?_, ?_⟩ <;> decide

/-- The fully valid two-channel configuration that `switch_delivery.py`
and the `--delivery` command line help advertise. -/
def multiChannelCfg : DeliveryConfig :=
  { method := some "email,slack"
    email := some { username := some "user@example.com"
                    password := some "secret"
                    recipients := ["recipient@example.com"] }
    slack := some { webhookUrl := some "https://hooks.slack.com/services/xxx/yyy/zzz" }
    line := none }

set_option maxRecDepth 4000 in
/-- C2: `_initialize_delivery_method` dispatches on the whole `method`
string, so the comma-separated multi-channel value accepted by the
configuration layer and the command line is rejected with `ValueError` at
startup — no set of two or more channels is ever initialized, and
`deliver` only ever consults the single configured channel, converting an
exception from its `send` into `False`. -/
theorem multi_channel_config_rejected :
    initializeDeliveryMethod multiChannelCfg =
      Except.error "Unsupported delivery method: email,slack" ∧
    deliver (SendBehavior.raises "requests.RequestException: HTTP 500") = false ∧
    deliver (SendBehavior.returns true) = true ∧
    deliver (SendBehavior.returns false) = false := by
  refine ⟨rfl, rfl, rfl, rfl⟩

/-! ## Orchestrator lemmas -/

theorem extract_ok_shape (url : String) (f : FetchResult) (content : Dict)
    (h : extract url f = Except.ok content) :
    ∃ html doc t title,
      f = FetchResult.success html doc t ∧
      extractTitle doc = Except.ok title ∧
      content = [("url", .str url),
                 ("domain", .str (netloc url)),
                 ("title", .str title),
                 ("content", .str (extractMainContent doc)),
                 ("html", .str html),
                 ("extracted_at", .num t)] := by
  cases f with
  | failure e => exact absurd h (by simp [extract])
  | success html doc t =>
    cases he : extractTitle doc with
    | error e =>
      rw [extract, he] at h
      exact absurd h (by simp)
    | ok title =>
      rw [extract, he] at h
      refine ⟨html, doc, t, title, rfl, he, ?_⟩
      cases h
      rfl

theorem extract_ok_no_flag (url : String) (f : FetchResult) (content : Dict)
    (h : extract url f = Except.ok content) :
    dictKeys content = ["url", "domain", "title", "content", "html", "extracted_at"] ∧
    dictLookup "access_restricted" content = none ∧
    pyGetBool "access_restricted" false content = false := by
  obtain ⟨html, doc, t, title, -, -, rfl⟩ := extract_ok_shape url f content h
  refine ⟨rfl, ?_, ?_⟩ <;> rfl

theorem processStory_err (story : Dict) (f : FetchResult) (gen : GenOutcome) (now : Nat)
    (e : String) (hx : extract (dictGetStrD "url" "" story) f = Except.error e) :
    processStory story f gen now = placeholderRecord story now := by
  unfold processStory
  rw [hx]

theorem processStory_okCase (story : Dict) (f : FetchResult) (gen : GenOutcome) (now : Nat)
    (content : Dict) (hx : extract (dictGetStrD "url" "" story) f = Except.ok content) :
    processStory story f gen now =
      (if pyGetBool "access_restricted" false content then restrictedRecord story content now
       else
         match summarize story content gen now with
         | .error _ => placeholderRecord story now
         | .ok rec => rec) := by
  unfold processStory
  rw [hx]

theorem processStories_append (xs ys : List (Dict × FetchResult × GenOutcome × Nat)) :
    processStories (xs ++ ys) = processStories xs ++ processStories ys := by
  induction xs with
  | nil => rfl
  | cons x rest ih =>
    obtain ⟨story, f, gen, now⟩ := x
    simp [processStories, ih]

/-- C1 (counterexample): on a fetch failure `ContentExtractor.extract`
re-raises the `requests.RequestException` to its caller instead of
returning an access-restricted result value. -/
theorem extract_raises_on_fetch_failure :
    extract "http://bad.example" (FetchResult.failure "requests.exceptions.ReadTimeout") =
      Except.error "requests.exceptions.ReadTimeout" := rfl

/-- C1 (amended): `extract` raises the fetch error; the orchestrator's
per-story `except` handler is what converts the failure into the
access-restricted placeholder record, with empty content (length 0), the
placeholder summary, and the domain re-parsed from the story URL. -/
theorem extract_failure_handled_by_orchestrator
    (story : Dict) (e : String) (gen : GenOutcome) (now : Nat) :
    extract (dictGetStrD "url" "" story) (FetchResult.failure e) = Except.error e ∧
    processStory story (FetchResult.failure e) gen now = placeholderRecord story now ∧
    (processStory story (FetchResult.failure e) gen now).accessRestricted = some true ∧
    (processStory story (FetchResult.failure e) gen now).summary = placeholderSummary ∧
    (processStory story (FetchResult.failure e) gen now).contentLength = 0 ∧
    (processStory story (FetchResult.failure e) gen now).cDomain =
      some (.str (netloc (dictGetStrD "url" "" story))) :=
  ⟨rfl, rfl, rfl, rfl, rfl, rfl⟩

/-- C3: a story whose extraction raises or whose summarization raises
still contributes exactly one record — the access-restricted placeholder
with the fixed placeholder summary and content length 0 — and the
surrounding batch is neither truncated nor aborted. -/
theorem story_failure_gives_placeholder_record
    (story : Dict) (f : FetchResult) (gen : GenOutcome) (now : Nat)
    (xs ys : List (Dict × FetchResult × GenOutcome × Nat))
    (h : (∃ e, extract (dictGetStrD "url" "" story) f = Except.error e) ∨
         (∃ m, gen = GenOutcome.exn m)) :
    (processStory story f gen now).accessRestricted = some true ∧
    (processStory story f gen now).summary = placeholderSummary ∧
    (processStory story f gen now).contentLength = 0 ∧
    processStories (xs ++ (story, f, gen, now) :: ys) =
      processStories xs ++ processStory story f gen now :: processStories ys := by
  have hbatch : processStories (xs ++ (story, f, gen, now) :: ys) =
      processStories xs ++ processStory story f gen now :: processStories ys := by
    rw [processStories_append]
    rfl
  have hrec : processStory story f gen now = placeholderRecord story now := by
    rcases h with ⟨e, he⟩ | ⟨m, hm⟩
    · exact processStory_err story f gen now e he
    · cases hx : extract (dictGetStrD "url" "" story) f with
      | error e2 => exact processStory_err story f gen now e2 hx
      | ok content =>
        have flag := (extract_ok_no_flag _ f content hx).2.2
        subst hm
        rw [processStory_okCase story f (GenOutcome.exn m) now content hx, flag]
        simp [summarize]
  exact ⟨by rw [hrec]; rfl, by rw [hrec]; rfl, by rw [hrec]; rfl, hbatch⟩

/-- A concrete story dictionary for witnesses: the specification's
example 2. -/
def storyT2 : Dict := [("title", .str "T2"), ("url", .str "http://bad.example")]

/-- Witness for C3 at the specification's example 2: a timed-out fetch
still yields the access-restricted placeholder record, inside an otherwise
untouched batch. -/
theorem story_failure_gives_placeholder_record_witness :
    (processStory storyT2 (FetchResult.failure "timeout") (GenOutcome.ok "unused") 7).accessRestricted = some true ∧
    (processStory storyT2 (FetchResult.failure "timeout") (GenOutcome.ok "unused") 7).summary = placeholderSummary ∧
    (processStory storyT2 (FetchResult.failure "timeout") (GenOutcome.ok "unused") 7).contentLength = 0 ∧
    processStories ([] ++ (storyT2, FetchResult.failure "timeout", GenOutcome.ok "unused", 7) :: []) =
      processStories [] ++
        processStory storyT2 (FetchResult.failure "timeout") (GenOutcome.ok "unused") 7 ::
          processStories [] :=
  story_failure_gives_placeholder_record storyT2 (FetchResult.failure "timeout")
    (GenOutcome.ok "unused") 7 [] [] (Or.inl ⟨"timeout", rfl⟩)

/-- C4 (counterexample): a backend response whose `response` field is the
empty string makes `OllamaProvider.generate_summary` return the empty
string, and the success path of the pipeline then produces a record whose
`summary` is the empty string. -/
theorem empty_provider_text_gives_empty_summary :
    ollamaGenerateSummary [("response", PyVal.str "")] = Except.ok "" ∧
    (processStory [("title", PyVal.str "T"), ("url", PyVal.str "http://a.com")]
        (FetchResult.success "<html>" [] 0) (GenOutcome.ok "") 0).summary = "" := by
  exact ⟨rfl, rfl⟩

/-- C4 (amended): every record's `summary` is present and is either the
fixed (non-empty) placeholder or exactly the provider's returned trimmed
text — which the code never checks for emptiness, so an empty provider
text yields an empty summary. -/
theorem summary_is_placeholder_or_provider_text
    (story : Dict) (f : FetchResult) (gen : GenOutcome) (now : Nat) :
    placeholderSummary ≠ "" ∧
    ((processStory story f gen now).summary = placeholderSummary ∨
     ∃ txt, gen = GenOutcome.ok txt ∧ (processStory story f gen now).summary = txt) := by
  refine ⟨by decide, ?_⟩
  cases hx : extract (dictGetStrD "url" "" story) f with
  | error e =>
    left
    rw [processStory_err story f gen now e hx]
    rfl
  | ok content =>
    by_cases hb : pyGetBool "access_restricted" false content = true
    · left
      rw [processStory_okCase story f gen now content hx, if_pos hb]
      rfl
    · cases gen with
      | exn m =>
        left
        rw [processStory_okCase story f (GenOutcome.exn m) now content hx, if_neg hb]
        rfl
      | ok txt =>
        right
        refine ⟨txt, rfl, ?_⟩
        rw [processStory_okCase story f (GenOutcome.ok txt) now content hx, if_neg hb]
        rfl

/-- C9: a successful `extract` returns a dictionary with exactly the keys
url, domain, title, content, html, extracted_at and no `access_restricted`
key, so the orchestrator's `content.get("access_restricted", False)` test
is `False` after every successful extraction, and the success path (no
summarization exception) produces a record with no `access_restricted`
key — the restricted branch is unreachable and placeholder records arise
only in the exception handler. -/
theorem extract_success_has_no_restricted_flag
    (url : String) (f : FetchResult) (content : Dict)
    (h : extract url f = Except.ok content)
    (story : Dict) (txt : String) (now : Nat) :
    dictKeys content = ["url", "domain", "title", "content", "html", "extracted_at"] ∧
    dictLookup "access_restricted" content = none ∧
    pyGetBool "access_restricted" false content = false ∧
    (processStory story f (GenOutcome.ok txt) now).accessRestricted = none ∧
    (processStory story f (GenOutcome.ok txt) now).summary = txt := by
  obtain ⟨keys, nokey, flag⟩ := extract_ok_no_flag url f content h
  obtain ⟨html, doc, t, title, rfl, htitle, -⟩ := extract_ok_shape url f content h
  have hx : extract (dictGetStrD "url" "" story) (FetchResult.success html doc t) =
      Except.ok [("url", .str (dictGetStrD "url" "" story)),
                 ("domain", .str (netloc (dictGetStrD "url" "" story))),
                 ("title", .str title),
                 ("content", .str (extractMainContent doc)),
                 ("html", .str html),
                 ("extracted_at", .num t)] := by
    rw [extract, htitle]
  have flag2 : pyGetBool "access_restricted" false
      [("url", PyVal.str (dictGetStrD "url" "" story)),
       ("domain", PyVal.str (netloc (dictGetStrD "url" "" story))),
       ("title", PyVal.str title),
       ("content", PyVal.str (extractMainContent doc)),
       ("html", PyVal.str html),
       ("extracted_at", PyVal.num t)] = false := rfl
  refine ⟨keys, nokey, flag, ?_, ?_⟩ <;>
    · rw [processStory_okCase story (FetchResult.success html doc t) (GenOutcome.ok txt) now _ hx,
        if_neg (by simp [flag2])]
      rfl

/-- A concrete successfully fetched document: a body with one text
node. -/
def doc0 : List Node := [Node.elem "body" none [] [Node.text "hi"]]

/-- A concrete story for witnesses: the specification's example 1. -/
def story0 : Dict := [("title", .str "T1"), ("url", .str "http://a.com")]

/-- The dictionary `extract` returns for `story0`'s URL on `doc0`. -/
def content0 : Dict :=
  [("url", .str "http://a.com"),
   ("domain", .str "a.com"),
   ("title", .str "No title found"),
   ("content", .str "hi"),
   ("html", .str "<html>"),
   ("extracted_at", .num 5)]

/-- Witness for C9 at a concrete successful extraction. -/
theorem extract_success_has_no_restricted_flag_witness :
    dictKeys content0 = ["url", "domain", "title", "content", "html", "extracted_at"] ∧
    dictLookup "access_restricted" content0 = none ∧
    pyGetBool "access_restricted" false content0 = false ∧
    (processStory story0 (FetchResult.success "<html>" doc0 5) (GenOutcome.ok "Resumo X") 9).accessRestricted = none ∧
    (processStory story0 (FetchResult.success "<html>" doc0 5) (GenOutcome.ok "Resumo X") 9).summary = "Resumo X" :=
  extract_success_has_no_restricted_flag "http://a.com"
    (FetchResult.success "<html>" doc0 5) content0 rfl story0 "Resumo X" 9

/-- C10: a story id whose metadata fetch raises, or whose metadata has no
`url` key, is silently dropped — `_fetch_story` returns `None` for the
former, the loop filter removes both — so the returned list holds exactly
the URL-bearing successfully fetched stories, in order, and can be shorter
than the requested limit; nothing is substituted for a dropped story and
the remaining ids are still processed. -/
theorem fetch_top_stories_drops_failed_and_urlless (now : Nat) (outcomes : List StoryFetch) :
    fetchTopStories now outcomes =
      (outcomes.map (fetchStory now)).filterMap
        (fun o => match o with
          | some d => if storyKeep (some d) then some d else none
          | none => none) ∧
    ((fetchTopStories now outcomes).all fun d => dictHasKey "url" d) = true ∧
    (fetchTopStories now outcomes).length ≤ outcomes.length := by
  induction outcomes with
  | nil => exact ⟨rfl, rfl, Nat.le_refl 0⟩
  | cons o rest ih =>
    obtain ⟨ih1, ih2, ih3⟩ := ih
    cases o with
    | exn m =>
      refine ⟨?_, ?_, ?_⟩
      · simpa [fetchTopStories, fetchStory] using ih1
      · simpa [fetchTopStories, fetchStory] using ih2
      · simp only [fetchTopStories, fetchStory, List.length_cons]
        omega
    | ok d =>
      by_cases hk : storyKeep (some (d ++ [("fetched_at", .num now)])) = true
      · refine ⟨?_, ?_, ?_⟩
        · simpa [fetchTopStories, fetchStory, hk] using ih1
        · have hurl : dictHasKey "url" (d ++ [("fetched_at", PyVal.num now)]) = true := by
            have h2 := hk
            unfold storyKeep at h2
            exact (Bool.and_eq_true _ _ |>.mp h2).2
          simpa [fetchTopStories, fetchStory, hk, hurl] using ih2
        · simp only [fetchTopStories, fetchStory, hk, if_true, List.length_cons]
          omega
      · rw [Bool.not_eq_true] at hk
        refine ⟨?_, ?_, ?_⟩
        · simpa [fetchTopStories, fetchStory, hk] using ih1
        · simpa [fetchTopStories, fetchStory, hk] using ih2
        · simp only [fetchTopStories, fetchStory, hk, Bool.false_eq_true, if_false,
            List.length_cons]
          omega

/-! ## Whitespace-normalization checkers -/

/-- Every whitespace character in the list is a plain space. -/
def noBadWs : List Char → Bool
  | [] => true
  | c :: cs => (!isWsChar c || c == ' ') && noBadWs cs

/-- No two adjacent whitespace characters. -/
def noDoubleWs : List Char → Bool
  | [] => true
  | [_] => true
  | a :: b :: cs => !(isWsChar a && isWsChar b) && noDoubleWs (b :: cs)

/-- The first character, when present, is not whitespace. -/
def headNotWs : List Char → Bool
  | [] => true
  | c :: _ => !isWsChar c

/-- The last character, when present, is not whitespace. -/
def lastNotWs : List Char → Bool
  | [] => true
  | [c] => !isWsChar c
  | _ :: c :: cs => lastNotWs (c :: cs)

/-- A fully normalized string: all whitespace is single interior spaces. -/
def collapsedOk (s : String) : Bool :=
  noBadWs s.data && noDoubleWs s.data && headNotWs s.data && lastNotWs s.data

theorem noBadWs_cons (c : Char) (cs : List Char) :
    noBadWs (c :: cs) = ((!isWsChar c || c == ' ') && noBadWs cs) := rfl

theorem noDoubleWs_cons_cons (a b : Char) (cs : List Char) :
    noDoubleWs (a :: b :: cs) = (!(isWsChar a && isWsChar b) && noDoubleWs (b :: cs)) := rfl

theorem squeeze_noBadWs : ∀ l : List Char, noBadWs (squeeze l) = true
  | [] => rfl
  | c :: cs => by
    have ih := squeeze_noBadWs cs
    simp only [squeeze]
    by_cases hc : isWsChar c = true
    · rw [if_pos hc]
      by_cases hh : ((squeeze cs).head? == some ' ') = true
      · rw [if_pos hh]
        exact ih
      · rw [if_neg hh, noBadWs_cons]
        simp [ih]
    · rw [if_neg hc, noBadWs_cons]
      rw [Bool.not_eq_true] at hc
      simp [hc, ih]

theorem squeeze_noDoubleWs : ∀ l : List Char, noDoubleWs (squeeze l) = true
  | [] => rfl
  | c :: cs => by
    have ih := squeeze_noDoubleWs cs
    have hbad := squeeze_noBadWs cs
    simp only [squeeze]
    by_cases hc : isWsChar c = true
    · rw [if_pos hc]
      by_cases hh : ((squeeze cs).head? == some ' ') = true
      · rw [if_pos hh]
        exact ih
      · rw [if_neg hh]
        cases hr : squeeze cs with
        | nil => rfl
        | cons r rs =>
          rw [hr] at ih hbad hh
          have hrsp : ¬(r = ' ') := by
            intro hcon
            subst hcon
            simp at hh
          have hrnw : isWsChar r = false := by
            rw [noBadWs_cons, Bool.and_eq_true, Bool.or_eq_true] at hbad
            rcases hbad.1 with h1 | h1
            · rwa [Bool.not_eq_eq_eq_not, Bool.not_true] at h1
            · exact absurd (by simpa using h1) hrsp
          rw [noDoubleWs_cons_cons, hrnw]
          simp [ih]
    · rw [if_neg hc]
      rw [Bool.not_eq_true] at hc
      cases hr : squeeze cs with
      | nil => rfl
      | cons r rs =>
        rw [hr] at ih
        rw [noDoubleWs_cons_cons, hc]
        simp [ih]

theorem noDoubleWs_tail (c : Char) (cs : List Char) (h : noDoubleWs (c :: cs) = true) :
    noDoubleWs cs = true := by
  cases cs with
  | nil => rfl
  | cons b cs2 =>
    rw [noDoubleWs_cons_cons, Bool.and_eq_true] at h
    exact h.2

theorem noBadWs_dropWhile (p : Char → Bool) :
    ∀ l : List Char, noBadWs l = true → noBadWs (l.dropWhile p) = true := by
  intro l
  induction l with
  | nil => exact fun h => h
  | cons c cs ih =>
    intro h
    rw [noBadWs_cons, Bool.and_eq_true] at h
    rw [List.dropWhile_cons]
    by_cases hp : p c = true
    · rw [if_pos hp]
      exact ih h.2
    · rw [if_neg hp]
      rw [noBadWs_cons, Bool.and_eq_true]
      exact h

theorem noDoubleWs_dropWhile (p : Char → Bool) :
    ∀ l : List Char, noDoubleWs l = true → noDoubleWs (l.dropWhile p) = true := by
  intro l
  induction l with
  | nil => exact fun h => h
  | cons c cs ih =>
    intro h
    rw [List.dropWhile_cons]
    by_cases hp : p c = true
    · rw [if_pos hp]
      exact ih (noDoubleWs_tail c cs h)
    · rw [if_neg hp]
      exact h

theorem headNotWs_dropWhileWs :
    ∀ l : List Char, headNotWs (l.dropWhile isWsChar) = true := by
  intro l
  induction l with
  | nil => rfl
  | cons c cs ih =>
    rw [List.dropWhile_cons]
    by_cases hp : isWsChar c = true
    · rw [if_pos hp]
      exact ih
    · rw [if_neg hp]
      rw [Bool.not_eq_true] at hp
      simp [headNotWs, hp]

theorem trimRight_shape (c : Char) (cs : List Char) :
    trimRight (c :: cs) = [] ∨ ∃ t, trimRight (c :: cs) = c :: t := by
  rw [trimRight]
  cases trimRight cs with
  | nil =>
    by_cases hc : isWsChar c = true
    · rw [if_pos hc]
      exact Or.inl rfl
    · rw [if_neg hc]
      exact Or.inr ⟨[], rfl⟩
  | cons r rs => exact Or.inr ⟨r :: rs, rfl⟩

theorem noBadWs_trimRight :
    ∀ l : List Char, noBadWs l = true → noBadWs (trimRight l) = true := by
  intro l
  induction l with
  | nil => exact fun h => h
  | cons c cs ih =>
    intro h
    rw [noBadWs_cons, Bool.and_eq_true] at h
    rw [trimRight]
    cases htr : trimRight cs with
    | nil =>
      by_cases hc : isWsChar c = true
      · rw [if_pos hc]
        rfl
      · rw [if_neg hc]
        rw [noBadWs_cons]
        simp [h.1, noBadWs]
    | cons r rs =>
      rw [noBadWs_cons, Bool.and_eq_true]
      have := ih h.2
      rw [htr] at this
      exact ⟨h.1, this⟩

theorem noDoubleWs_trimRight :
    ∀ l : List Char, noDoubleWs l = true → noDoubleWs (trimRight l) = true := by
  intro l
  induction l with
  | nil => exact fun h => h
  | cons c cs ih =>
    intro h
    rw [trimRight]
    cases htr : trimRight cs with
    | nil =>
      by_cases hc : isWsChar c = true
      · rw [if_pos hc]
        rfl
      · rw [if_neg hc]
        rfl
    | cons r rs =>
      have hcs2 := ih (noDoubleWs_tail c cs h)
      rw [htr] at hcs2
      cases cs with
      | nil => exact absurd htr (by simp [trimRight])
      | cons c2 cs2 =>
        have hr : r = c2 := by
          rcases trimRight_shape c2 cs2 with h2 | ⟨t, h2⟩
          · rw [h2] at htr
            exact absurd htr (by simp)
          · rw [h2] at htr
            exact (List.cons.injEq _ _ _ _ ▸ htr).1.symm
        subst hr
        rw [noDoubleWs_cons_cons, Bool.and_eq_true]
        refine ⟨?_, hcs2⟩
        rw [noDoubleWs_cons_cons, Bool.and_eq_true] at h
        exact h.1

theorem headNotWs_trimRight :
    ∀ l : List Char, headNotWs l = true → headNotWs (trimRight l) = true := by
  intro l
  cases l with
  | nil => exact fun h => h
  | cons c cs =>
    intro h
    rcases trimRight_shape c cs with h2 | ⟨t, h2⟩ <;> rw [h2]
    · rfl
    · exact h

theorem lastNotWs_trimRight : ∀ l : List Char, lastNotWs (trimRight l) = true := by
  intro l
  induction l with
  | nil => rfl
  | cons c cs ih =>
    rw [trimRight]
    cases htr : trimRight cs with
    | nil =>
      by_cases hc : isWsChar c = true
      · rw [if_pos hc]
        rfl
      · rw [if_neg hc]
        rw [Bool.not_eq_true] at hc
        simp [lastNotWs, hc]
    | cons r rs =>
      rw [htr] at ih
      exact ih

theorem collapsedOk_collapse (s : String) : collapsedOk (collapseWhitespace s) = true := by
  unfold collapseWhitespace collapsedOk
  have h1 := squeeze_noBadWs s.data
  have h2 := squeeze_noDoubleWs s.data
  rw [show (String.mk (trimRight ((squeeze s.data).dropWhile isWsChar))).data =
    trimRight ((squeeze s.data).dropWhile isWsChar) from rfl]
  rw [noBadWs_trimRight _ (noBadWs_dropWhile _ _ h1),
    noDoubleWs_trimRight _ (noDoubleWs_dropWhile _ _ h2),
    headNotWs_trimRight _ (headNotWs_dropWhileWs (squeeze s.data)),
    lastNotWs_trimRight]
  rfl

/-- C6: `_extract_main_content` first removes script/style/nav/header/
footer/aside elements, then selects the content node exactly per the
specification's five-step fallback chain (id match, class match, first
article element, document body, whole document), and returns the selected
node's visible text with whitespace runs collapsed to single spaces and
trimmed — the result contains only single interior spaces, no other
whitespace, and no leading or trailing whitespace. -/
theorem extract_main_content_correct (doc : List Node) :
    extractMainContent doc = extractMainContentSpec doc ∧
    collapsedOk (extractMainContent doc) = true := by
  constructor
  · unfold extractMainContent extractMainContentSpec selectContentSpec
    cases h1 : findByIdList contentIdNames (stripNodes unwantedTag doc) <;>
      cases h2 : findByClassList contentClassNames (stripNodes unwantedTag doc) <;>
        cases h3 : findTag "article" (stripNodes unwantedTag doc) <;>
          cases h4 : findTag "body" (stripNodes unwantedTag doc) <;>
            simp [h1, h2, h3, h4, Option.orElse]
  · exact collapsedOk_collapse _

end HN
